import Mathlib

/-!
Verification development for the LighterBot multi-account trading engine.

Shallow embedding of the Python source under `src/`:
Python floats are modelled as exact rationals (ℚ), Python ints as ℤ/ℕ,
dictionaries as association lists or pointwise-updated functions, and
network/randomness effects as explicit oracle arguments.  Each definition
mirrors one source function, named after it where Lean allows.
-/

namespace LighterBot

/-- Order side, as passed to `create_market_order` (`"buy"` / `"sell"`). -/
inductive Side where
  | buy
  | sell
deriving DecidableEq, Repr

/-- A trade instruction produced by the signal handlers of
`MultiAccountSignalService`: either no order at all, or one market order of
the given side and quantity. -/
inductive TradeInstr where
  | none
  | trade (side : Side) (quantity : ℚ)
deriving DecidableEq, Repr

/-- `MultiAccountSignalService._handle_long_signal`
(src/src/services/multi_account_signal_service.py lines 184-237), restricted
to the trade instruction it derives from the current tracked position `p` and
the computed target size `s`:
if `p > 0` it returns without trading; if `p < 0` it buys `abs(p) + s`;
otherwise it buys `s`. -/
def handleLongSignal (p s : ℚ) : TradeInstr :=
  if 0 < p then .none
  else if p < 0 then .trade .buy (|p| + s)
  else .trade .buy s

/-- `MultiAccountSignalService._handle_close_signal`
(src/src/services/multi_account_signal_service.py lines 295-340):
if `p == 0` it returns without trading; if `p > 0` it sells `p`;
otherwise it buys `abs(p)`. -/
def handleCloseSignal (p : ℚ) : TradeInstr :=
  if p = 0 then .none
  else if 0 < p then .trade .sell p
  else .trade .buy |p|

/-- C1: the Position-Adjustment Policy on current signed position `p` and
target size `s > 0`: a long signal is a no-op when `p > 0`, one buy of
`|p| + s` when `p < 0`, and one buy of `s` when `p = 0`; a close signal is a
no-op when `p = 0` and otherwise one order of `|p|` in the closing direction
(sell when `p > 0`, buy when `p < 0`); in particular `p = -2, s = 3` long
yields one buy of 5, `p = 4` close yields one sell of 4, and `p = 0` close
yields no instruction. -/
theorem position_adjustment_policy (p s : ℚ) (hs : 0 < s) :
    (0 < p → handleLongSignal p s = .none) ∧
    (p < 0 → handleLongSignal p s = .trade .buy (|p| + s)) ∧
    (p = 0 → handleLongSignal p s = .trade .buy s) ∧
    (p = 0 → handleCloseSignal p = .none) ∧
    (0 < p → handleCloseSignal p = .trade .sell |p|) ∧
    (p < 0 → handleCloseSignal p = .trade .buy |p|) ∧
    handleLongSignal (-2) 3 = .trade .buy 5 ∧
    handleCloseSignal 4 = .trade .sell 4 ∧
    handleCloseSignal 0 = .none := by
  refine ⟨?_, ?_, ?_, ?_, ?_, ?_, ?_, ?_, ?_⟩
  · intro hp
    simp [handleLongSignal, hp]
  · intro hp
    simp [handleLongSignal, hp, not_lt.mpr hp.le, hp.ne]
  · intro hp
    subst hp
    simp [handleLongSignal]
  · intro hp
    subst hp
    simp [handleCloseSignal]
  · intro hp
    rw [abs_of_pos hp]
    simp [handleCloseSignal, hp, hp.ne']
  · intro hp
    simp [handleCloseSignal, hp.ne, not_lt.mpr hp.le]
  · norm_num [handleLongSignal]
  · norm_num [handleCloseSignal]
  · norm_num [handleCloseSignal]

/-- Concrete instantiation of `position_adjustment_policy` at `p = -2`,
`s = 3`: the reversal buy has quantity `5`. -/
theorem position_adjustment_policy_witness :
    handleLongSignal (-2) 3 = .trade .buy 5 :=
  (position_adjustment_policy (-2) 3 (by norm_num)).2.2.2.2.2.2.1

/-- One entry of the position list that the venue returns for an account:
a magnitude `position` and a `sign` (`1` long, `-1` short), as consumed by
`sync_position_tracking` (src/src/strategies/market_order_hft.py 837-862). -/
structure PosEntry where
  symbol : String
  position : ℚ
  sign : ℤ
deriving DecidableEq, Repr

/-- The signed position an entry denotes: `position.position * position.sign`
(`sync_position_tracking`, line 850). -/
def signedValue (e : PosEntry) : ℚ := e.position * (e.sign : ℚ)

/-- Timeout of the verification race: `asyncio.wait_for(..., timeout=5.0)`
(src/src/strategies/market_order_hft.py line 793). -/
def verificationTimeout : ℚ := 5

/-- Tolerance stored in the verification record: `'tolerance': 0.001`
(src/src/strategies/market_order_hft.py line 787). -/
def verificationTolerance : ℚ := 1 / 1000

/-- The position expected after the order, computed by
`verify_order_execution` lines 758-762: previous tracked position plus the
quantity for a buy, minus it for a sell. -/
def expectedNewPosition (prev qty : ℚ) : Side → ℚ
  | .buy => prev + qty
  | .sell => prev - qty

/-- `sync_position_tracking`'s scan of the polled position list: Python's
`for position in positions: if position.symbol == symbol: ...; return`
stops at the first matching entry. -/
def findPosition (positions : List PosEntry) (symbol : String) : Option PosEntry :=
  positions.find? (fun e => e.symbol == symbol)

/-- `MarketOrderHFT.sync_position_tracking`
(src/src/strategies/market_order_hft.py 837-862) on the tracked value of one
symbol: overwrite it with the polled signed value when the poll lists the
symbol, leave it unchanged otherwise. -/
def sync_position_tracking (tracked : ℚ) (poll : List PosEntry) (symbol : String) : ℚ :=
  match findPosition poll symbol with
  | some e => signedValue e
  | none => tracked

/-- `MarketOrderHFT.verify_order_execution`
(src/src/strategies/market_order_hft.py 754-835), with the race outcome made
explicit: `pushUpdate` is the position value delivered by a push event for
this symbol during the 5 s wait (`none` if no push arrives), and `poll` is
the position list returned by the single fallback poll.  A push matching the
expected position within tolerance resolves the race immediately
(`_check_pending_verifications`, lines 1178-1210, sets the event only on a
match, and `on_realtime_position_update` line 1011 stores the pushed value);
otherwise the wait times out and `sync_position_tracking` adopts the polled
value, after which the result is the tolerance comparison of lines 812-825.
Returns (confirmed, tracked position afterwards). -/
def verify_order_execution (tracked qty : ℚ) (side : Side) (symbol : String)
    (pushUpdate : Option ℚ) (poll : List PosEntry) : Bool × ℚ :=
  let expected := expectedNewPosition tracked qty side
  match pushUpdate with
  | some v =>
      if |v - expected| ≤ verificationTolerance then (true, v)
      else
        let synced := sync_position_tracking v poll symbol
        (decide (|synced - expected| ≤ verificationTolerance), synced)
  | none =>
      let synced := sync_position_tracking tracked poll symbol
      (decide (|synced - expected| ≤ verificationTolerance), synced)

/-- C2: verification computes the expected position as previous tracked
position plus the order quantity for a buy and minus it for a sell, uses a
5-second timeout and tolerance 0.001, and on timeout (no push) falls back to
one position poll: when the poll lists the symbol with entry `e`, the result
is confirmed exactly when the polled signed value matches expected within
tolerance, and the tracked position becomes the polled value (in particular,
on a mismatch the result is Unconfirmed and the tracked position is the
polled value, never the expected value). -/
theorem verify_order_execution_fallback (tracked qty : ℚ) (side : Side)
    (symbol : String) (poll : List PosEntry) (e : PosEntry)
    (hfind : findPosition poll symbol = some e) :
    verificationTimeout = 5 ∧
    verificationTolerance = 1 / 1000 ∧
    expectedNewPosition tracked qty .buy = tracked + qty ∧
    expectedNewPosition tracked qty .sell = tracked - qty ∧
    verify_order_execution tracked qty side symbol none poll =
      (decide (|signedValue e - expectedNewPosition tracked qty side| ≤
          verificationTolerance), signedValue e) ∧
    (¬ |signedValue e - expectedNewPosition tracked qty side| ≤
          verificationTolerance →
      verify_order_execution tracked qty side symbol none poll =
        (false, signedValue e)) := by
  have hsync : sync_position_tracking tracked poll symbol = signedValue e := by
    simp [sync_position_tracking, hfind]
  refine ⟨rfl, rfl, rfl, rfl, ?_, ?_⟩
  · simp [verify_order_execution, hsync]
  · intro hmiss
    simp [verify_order_execution, hsync, hmiss]

/-- Concrete instantiation of `verify_order_execution_fallback`: a buy of 1
from tracked position 0 expects position 1; the poll returns a short of 2
(signed value -2), so verification is Unconfirmed and the tracked position
becomes -2, not 1. -/
theorem verify_order_execution_fallback_witness :
    verify_order_execution 0 1 .buy "ETH" none [⟨"ETH", 2, -1⟩] =
      (false, signedValue ⟨"ETH", 2, -1⟩) := by
  have h := verify_order_execution_fallback 0 1 .buy "ETH" [⟨"ETH", 2, -1⟩]
    ⟨"ETH", 2, -1⟩ (by rfl)
  exact h.2.2.2.2.2 (by norm_num [signedValue, expectedNewPosition, verificationTolerance])

/-- The 12-digit ceiling of `_generate_order_index`:
`if self._last_order_index >= 1000000000000` (src/src/core/account_manager_v2.py
line 675). -/
def orderIndexCeiling : ℕ := 1000000000000

/-- Lower bound of the random seed draw `random.randint(100000, 999999999999)`
(src/src/core/account_manager_v2.py lines 669 and 676). -/
def orderIndexSeedLo : ℕ := 100000

/-- Upper bound (inclusive) of the random seed draw. -/
def orderIndexSeedHi : ℕ := 999999999999

/-- `LighterAccountClientV2._generate_order_index`
(src/src/core/account_manager_v2.py 662-678).  `last` is
`self._last_order_index` before the call (`none` on the first call); `fresh1`
stands for the `random.randint(100000, 999999999999)` draw used on the first
call, `fresh2` for the draw used when the ceiling is reached.  Returns the
generated index, which the code also stores back into
`self._last_order_index`. -/
def generate_order_index (last : Option ℕ) (fresh1 fresh2 : ℕ) : ℕ :=
  let v := match last with
    | none => fresh1
    | some l => l + 1
  if orderIndexCeiling ≤ v then fresh2 else v

/-- C3: with both random draws in `[100000, 999999999999]`, the first call
returns the first draw (a value in that range); a later call with previous
value `l` returns `l + 1` whenever `l + 1` is below the `10^12` ceiling —
hence consecutive calls are strictly increasing — and returns a fresh draw
strictly below the ceiling once `l + 1` reaches it; and from any previous
value below the ceiling the returned value is below the ceiling, i.e. has at
most 12 decimal digits. -/
theorem generate_order_index_spec (fresh1 fresh2 : ℕ)
    (h1 : orderIndexSeedLo ≤ fresh1 ∧ fresh1 ≤ orderIndexSeedHi)
    (h2 : orderIndexSeedLo ≤ fresh2 ∧ fresh2 ≤ orderIndexSeedHi) :
    (generate_order_index none fresh1 fresh2 = fresh1 ∧
      orderIndexSeedLo ≤ fresh1 ∧ fresh1 < orderIndexCeiling) ∧
    (∀ l : ℕ, l + 1 < orderIndexCeiling →
      generate_order_index (some l) fresh1 fresh2 = l + 1 ∧
      l < generate_order_index (some l) fresh1 fresh2) ∧
    (∀ l : ℕ, orderIndexCeiling ≤ l + 1 →
      generate_order_index (some l) fresh1 fresh2 = fresh2 ∧
      fresh2 < orderIndexCeiling) ∧
    (∀ l : ℕ, l < orderIndexCeiling →
      generate_order_index (some l) fresh1 fresh2 < orderIndexCeiling) := by
  have hc1 : fresh1 < orderIndexCeiling := by
    have := h1.2
    simp only [orderIndexSeedHi, orderIndexCeiling] at *
    omega
  have hc2 : fresh2 < orderIndexCeiling := by
    have := h2.2
    simp only [orderIndexSeedHi, orderIndexCeiling] at *
    omega
  refine ⟨⟨?_, h1.1, hc1⟩, ?_, ?_, ?_⟩
  · simp [generate_order_index, not_le.mpr hc1]
  · intro l hl
    constructor
    · simp [generate_order_index, not_le.mpr hl]
    · simp [generate_order_index, not_le.mpr hl]
  · intro l hl
    constructor
    · simp [generate_order_index, hl]
    · exact hc2
  · intro l _
    by_cases hceil : orderIndexCeiling ≤ l + 1
    · simpa [generate_order_index, hceil] using hc2
    · simp only [generate_order_index, if_neg hceil]
      omega

/-- Concrete instantiation of `generate_order_index_spec` at draws `100000`
and `500000`: the first call returns the seed `100000`. -/
theorem generate_order_index_spec_witness :
    generate_order_index none 100000 500000 = 100000 :=
  (generate_order_index_spec 100000 500000
    (by norm_num [orderIndexSeedLo, orderIndexSeedHi])
    (by norm_num [orderIndexSeedLo, orderIndexSeedHi])).1.1

/-- A venue client as seen by `AccountManagerV2`: only its `connected` flag
matters to `get_client`'s control flow; a client created by a successful
`connect()` has `connected = True` (src/src/core/account_manager_v2.py
line 347). -/
structure Client where
  connected : Bool
deriving DecidableEq, Repr

/-- `self.max_retries = 3` (src/src/core/account_manager_v2.py line 27). -/
def maxRetries : ℕ := 3

/-- The mutable state of `AccountManagerV2`: the set of configured account
indices (`account_configs.keys()`), the client map (`self.accounts`), and the
consecutive-failure counters (`self.connection_retries`). -/
structure ManagerState where
  configs : List ℕ
  accounts : ℕ → Option Client
  retries : ℕ → ℕ

/-- The creation path of `get_client` (src/src/core/account_manager_v2.py
lines 124-137) together with `_create_client` (lines 139-179): refuse without
attempting when the retry counter has reached `max_retries`; otherwise
attempt a connection (`ok` is the oracle for its success).  On success the
new connected client is installed and the counter reset to 0; on failure the
client entry is removed (`_create_client` deletes it, lines 144-151 and
176-178) and the counter incremented.  Returns (returned client, new state,
whether a connection attempt was made). -/
def tryCreateClient (s : ManagerState) (idx : ℕ) (ok : Bool) :
    Option Client × ManagerState × Bool :=
  if maxRetries ≤ s.retries idx then (none, s, false)
  else if ok then
    (some ⟨true⟩,
      { s with accounts := Function.update s.accounts idx (some ⟨true⟩),
               retries := Function.update s.retries idx 0 }, true)
  else
    (none,
      { s with accounts := Function.update s.accounts idx none,
               retries := Function.update s.retries idx (s.retries idx + 1) }, true)

/-- `AccountManagerV2.get_client` (src/src/core/account_manager_v2.py
110-137): an unknown index fails immediately; a cached connected client is
returned as is; otherwise creation/reconnection goes through
`tryCreateClient`. -/
def get_client (s : ManagerState) (idx : ℕ) (ok : Bool) :
    Option Client × ManagerState × Bool :=
  if idx ∈ s.configs then
    match s.accounts idx with
    | some c => if c.connected then (some c, s, false) else tryCreateClient s idx ok
    | none => tryCreateClient s idx ok
  else (none, s, false)

/-- `AccountManagerV2.reset_retry_count` (src/src/core/account_manager_v2.py
229-232). -/
def reset_retry_count (s : ManagerState) (idx : ℕ) : ManagerState :=
  { s with retries := Function.update s.retries idx 0 }

/-- State invariant of `AccountManagerV2`: a strictly positive retry counter
implies no cached client for that index (every failed `_create_client` call
deletes the entry before the counter is incremented). -/
def RetryInvariant (s : ManagerState) : Prop :=
  ∀ i, 0 < s.retries i → s.accounts i = none

/-- C5: under the retry invariant, (1) an unconfigured index fails with no
connection attempt and no state change; (2) once the counter reaches
`max_retries` (3), `get_client` fails with no connection attempt and no state
change — hence it keeps failing identically on every further call until
`reset_retry_count`; (3) below the budget a successful creation returns a
connected client and resets the counter to 0 (an attempt was made); (4) below
the budget a failed creation increments the counter; (5) `reset_retry_count`
zeroes the counter; and the invariant is preserved by both operations. -/
theorem get_client_retry_policy (s : ManagerState) (idx : ℕ) (ok : Bool)
    (hinv : RetryInvariant s) :
    (idx ∉ s.configs → get_client s idx ok = (none, s, false)) ∧
    (maxRetries ≤ s.retries idx → get_client s idx ok = (none, s, false)) ∧
    (idx ∈ s.configs → s.retries idx < maxRetries → s.accounts idx = none →
      (get_client s idx true).1 = some ⟨true⟩ ∧
      (get_client s idx true).2.1.retries idx = 0 ∧
      (get_client s idx true).2.2 = true) ∧
    (idx ∈ s.configs → s.retries idx < maxRetries → s.accounts idx = none →
      (get_client s idx false).1 = none ∧
      (get_client s idx false).2.1.retries idx = s.retries idx + 1 ∧
      (get_client s idx false).2.2 = true) ∧
    (reset_retry_count s idx).retries idx = 0 ∧
    RetryInvariant (get_client s idx ok).2.1 ∧
    RetryInvariant (reset_retry_count s idx) := by
  refine ⟨?_, ?_, ?_, ?_, ?_, ?_, ?_⟩
  · intro hidx
    simp [get_client, hidx]
  · intro hmax
    have hnone : s.accounts idx = none := by
      apply hinv
      simp only [maxRetries] at hmax
      omega
    by_cases hidx : idx ∈ s.configs
    · simp [get_client, hidx, hnone, tryCreateClient, hmax]
    · simp [get_client, hidx]
  · intro hidx hlt hnone
    simp [get_client, hidx, hnone, tryCreateClient, not_le.mpr hlt]
  · intro hidx hlt hnone
    simp [get_client, hidx, hnone, tryCreateClient, not_le.mpr hlt]
  · simp [reset_retry_count]
  · intro i hi
    by_cases hidx : idx ∈ s.configs
    · rcases hacc : s.accounts idx with _ | c
      · simp only [get_client, if_pos hidx, hacc] at hi ⊢
        by_cases hmax : maxRetries ≤ s.retries idx
        · simp only [tryCreateClient, if_pos hmax] at hi ⊢
          exact hinv i hi
        · cases ok
          · simp only [tryCreateClient, if_neg hmax, Bool.false_eq_true,
              if_false] at hi ⊢
            by_cases hiidx : i = idx
            · subst hiidx
              simp [Function.update_same]
            · rw [Function.update_noteq hiidx] at hi ⊢
              exact hinv i hi
          · simp only [tryCreateClient, if_neg hmax, if_true] at hi ⊢
            by_cases hiidx : i = idx
            · subst hiidx
              simp [Function.update_same] at hi
            · rw [Function.update_noteq hiidx] at hi ⊢
              exact hinv i hi
      · by_cases hconn : c.connected
        · simp only [get_client, if_pos hidx, hacc, if_pos hconn] at hi ⊢
          exact hinv i hi
        · simp only [get_client, if_pos hidx, hacc, if_neg hconn] at hi ⊢
          by_cases hmax : maxRetries ≤ s.retries idx
          · simp only [tryCreateClient, if_pos hmax] at hi ⊢
            exact hinv i hi
          · cases ok
            · simp only [tryCreateClient, if_neg hmax, Bool.false_eq_true,
                if_false] at hi ⊢
              by_cases hiidx : i = idx
              · subst hiidx
                simp [Function.update_same]
              · rw [Function.update_noteq hiidx] at hi ⊢
                exact hinv i hi
            · simp only [tryCreateClient, if_neg hmax, if_true] at hi ⊢
              by_cases hiidx : i = idx
              · subst hiidx
                simp [Function.update_same] at hi
              · rw [Function.update_noteq hiidx] at hi ⊢
                exact hinv i hi
    · simp only [get_client, if_neg hidx] at hi ⊢
      exact hinv i hi
  · intro i hi
    simp only [reset_retry_count] at hi ⊢
    by_cases hiidx : i = idx
    · subst hiidx
      simp [Function.update_same] at hi
    · rw [Function.update_noteq hiidx] at hi
      exact hinv i hi

/-- Concrete instantiation of `get_client_retry_policy`: in a state with
account 1 configured, no cached client and an exhausted retry counter,
`get_client` fails with no attempt and no state change. -/
theorem get_client_retry_policy_witness :
    get_client ⟨[1], fun _ => none, fun _ => 3⟩ 1 true =
      (none, ⟨[1], fun _ => none, fun _ => 3⟩, false) :=
  (get_client_retry_policy ⟨[1], fun _ => none, fun _ => 3⟩ 1 true
    (fun _ _ => rfl)).2.1 (by norm_num [maxRetries])

/-- The snapshot-application loop of `initialize_position_tracking`
(src/src/strategies/market_order_hft.py lines 879-889): for each entry of the
venue snapshot whose symbol is a configured trading pair, overwrite the
tracked value with the entry's signed position. -/
def applySnapshot (pairs : List String) (pos : String → Option ℚ) :
    List PosEntry → (String → Option ℚ)
  | [] => pos
  | e :: rest =>
      applySnapshot pairs
        (if e.symbol ∈ pairs then
          Function.update pos e.symbol (some (signedValue e))
        else pos) rest

/-- `MarketOrderHFT.initialize_position_tracking`
(src/src/strategies/market_order_hft.py 864-903): zero-fill every configured
trading pair, then overwrite from the venue snapshot; if the snapshot fetch
fails (`fetch = none`, the `except` branch, lines 899-903), the map is the
zero fill.  The result maps a symbol to `none` exactly when it is not a
configured pair. -/
def initialize_position_tracking (pairs : List String)
    (fetch : Option (List PosEntry)) : String → Option ℚ :=
  let zeroed : String → Option ℚ := fun s => if s ∈ pairs then some 0 else none
  match fetch with
  | none => zeroed
  | some snapshot => applySnapshot pairs zeroed snapshot

/-- The snapshot entry that ends up governing symbol `s`: the last entry of
the list whose symbol is `s` (later entries of the loop overwrite earlier
ones). -/
def lastEntryFor (snapshot : List PosEntry) (s : String) : Option PosEntry :=
  match snapshot with
  | [] => none
  | e :: rest =>
      match lastEntryFor rest s with
      | some e' => some e'
      | none => if e.symbol == s then some e else none

/-- After `applySnapshot`, a configured symbol holds the signed value of the
last snapshot entry for it, or its prior value when the snapshot never
mentions it. -/
theorem applySnapshot_eq (pairs : List String) (snapshot : List PosEntry)
    (pos : String → Option ℚ) (s : String) (hs : s ∈ pairs) :
    applySnapshot pairs pos snapshot s =
      match lastEntryFor snapshot s with
      | some e => some (signedValue e)
      | none => pos s := by
  induction snapshot generalizing pos with
  | nil => rfl
  | cons e rest ih =>
      rw [applySnapshot, ih]
      rcases hrest : lastEntryFor rest s with _ | e'
      · simp only [lastEntryFor, hrest]
        by_cases hsym : e.symbol = s
        · subst hsym
          simp [Function.update_same, hs]
        · have hbeq : (e.symbol == s) = false := by
            simp [hsym]
          rw [hbeq]
          by_cases hmem : e.symbol ∈ pairs
          · simp only [if_pos hmem]
            rw [Function.update_noteq (Ne.symm hsym)]
            simp
          · simp only [if_neg hmem]
            simp
      · simp only [lastEntryFor, hrest]

/-- `applySnapshot` never touches a symbol outside the configured pairs. -/
theorem applySnapshot_not_mem (pairs : List String) (snapshot : List PosEntry)
    (pos : String → Option ℚ) (s' : String) (hs' : s' ∉ pairs) :
    applySnapshot pairs pos snapshot s' = pos s' := by
  induction snapshot generalizing pos with
  | nil => rfl
  | cons e rest ih =>
      rw [applySnapshot, ih]
      by_cases hmem : e.symbol ∈ pairs
      · simp only [if_pos hmem]
        have hne : e.symbol ≠ s' := fun h => hs' (h ▸ hmem)
        rw [Function.update_noteq (Ne.symm hne)]
      · simp only [if_neg hmem]

/-- A `lastEntryFor` result is a snapshot entry for the queried symbol, and
it exists whenever the snapshot mentions the symbol. -/
theorem lastEntryFor_spec (snapshot : List PosEntry) (s : String) :
    (∀ e, lastEntryFor snapshot s = some e → e ∈ snapshot ∧ e.symbol = s) ∧
    (∀ e, e ∈ snapshot → e.symbol = s → lastEntryFor snapshot s ≠ none) := by
  induction snapshot with
  | nil =>
      constructor
      · intro e h
        simp [lastEntryFor] at h
      · intro e h
        simp at h
  | cons a rest ih =>
      constructor
      · intro e h
        rw [lastEntryFor] at h
        rcases hrest : lastEntryFor rest s with _ | w
        · rw [hrest] at h
          by_cases hsym : a.symbol = s
          · simp [hsym] at h
            subst h
            exact ⟨List.mem_cons_self a rest, hsym⟩
          · simp [hsym] at h
        · rw [hrest] at h
          injection h with h
          subst h
          have hw := ih.1 w hrest
          exact ⟨List.mem_cons_of_mem a hw.1, hw.2⟩
      · intro e he hsym
        rw [lastEntryFor]
        rcases hrest : lastEntryFor rest s with _ | e'
        · rcases List.mem_cons.mp he with he' | he'
          · subst he'
            simp [hsym]
          · exact absurd hrest (ih.2 e he' hsym)
        · simp

/-- C6: after `initialize_position_tracking` completes — with or without a
successful snapshot fetch — every configured trading pair has a defined
tracked position: `0` when the snapshot fails or does not mention the
symbol, and the snapshot's signed value (magnitude times sign, last entry
winning) when it does; only non-configured symbols are absent from the
map. -/
theorem initialize_position_tracking_total (pairs : List String)
    (fetch : Option (List PosEntry)) (s : String) (hs : s ∈ pairs) :
    (initialize_position_tracking pairs fetch s ≠ none) ∧
    (initialize_position_tracking pairs none s = some 0) ∧
    (∀ snapshot, lastEntryFor snapshot s = none →
      initialize_position_tracking pairs (some snapshot) s = some 0) ∧
    (∀ snapshot e, lastEntryFor snapshot s = some e →
      initialize_position_tracking pairs (some snapshot) s =
        some (signedValue e)) ∧
    (∀ s', s' ∉ pairs → initialize_position_tracking pairs fetch s' = none) := by
  refine ⟨?_, ?_, ?_, ?_, ?_⟩
  · rcases fetch with _ | snapshot
    · simp [initialize_position_tracking, hs]
    · rw [initialize_position_tracking, applySnapshot_eq pairs snapshot _ s hs]
      rcases h : lastEntryFor snapshot s with _ | e
      · simp [hs]
      · simp
  · simp [initialize_position_tracking, hs]
  · intro snapshot h
    rw [initialize_position_tracking, applySnapshot_eq pairs snapshot _ s hs, h]
    simp [hs]
  · intro snapshot e h
    rw [initialize_position_tracking, applySnapshot_eq pairs snapshot _ s hs, h]
  · intro s' hs'
    rcases fetch with _ | snapshot
    · simp [initialize_position_tracking, hs']
    · rw [initialize_position_tracking, applySnapshot_not_mem pairs snapshot _ s' hs']
      simp [hs']

/-- Concrete instantiation of `initialize_position_tracking_total`: with
configured pairs `["ETH", "BTC"]` and a snapshot listing only a short BTC
position of 1, ETH is tracked as 0, not missing. -/
theorem initialize_position_tracking_total_witness :
    initialize_position_tracking ["ETH", "BTC"] (some [⟨"BTC", 1, -1⟩]) "ETH" =
      some 0 :=
  (initialize_position_tracking_total ["ETH", "BTC"] (some [⟨"BTC", 1, -1⟩])
    "ETH" (by simp)).2.2.1 [⟨"BTC", 1, -1⟩] (by rfl)

/-- A JSON scalar as found in one field of an `accounts.json` entry. -/
inductive JsonValue where
  | int (n : ℤ)
  | str (s : String)
  | bool (b : Bool)
deriving DecidableEq, Repr

/-- One account entry as parsed from `accounts.json`: the four required
fields may be missing or of the wrong type; `active` defaults to `True`
(`account.get('active', True)`), `allowed_symbols` to `[]`. -/
structure RawAccount where
  account_index : Option JsonValue
  api_key_index : Option JsonValue
  api_key : Option JsonValue
  api_secret : Option JsonValue
  name : Option String
  active : Option Bool
  allowed_symbols : List String
deriving DecidableEq, Repr

/-- `isinstance(config[field], int)` for an optional JSON field. -/
def isIntValue : Option JsonValue → Bool
  | some (.int _) => true
  | _ => false

/-- `AccountManagerV2._validate_account_config`
(src/src/core/account_manager_v2.py 90-108): the four required fields
`account_index`, `api_key_index`, `api_key`, `api_secret` must be present,
and `account_index`, `api_key_index` must be integers. -/
def validate_account_config (a : RawAccount) : Bool :=
  a.account_index.isSome && a.api_key_index.isSome &&
    a.api_key.isSome && a.api_secret.isSome &&
    isIntValue a.account_index && isIntValue a.api_key_index

/-- The integer value of `account['account_index']`; only read after
validation guarantees it is an integer. -/
def accountIndexOf (a : RawAccount) : ℤ :=
  match a.account_index with
  | some (.int n) => n
  | _ => 0

/-- The environment-level settings consumed by `_load_default_account`
(config/settings.py: `lighter_account_index`, `lighter_api_key_index`,
`lighter_api_key`, `lighter_api_secret`). -/
structure Settings where
  lighter_account_index : ℤ
  lighter_api_key_index : ℤ
  lighter_api_key : String
  lighter_api_secret : String
deriving DecidableEq, Repr

/-- The default account dictionary built by
`AccountManagerV2._load_default_account`
(src/src/core/account_manager_v2.py 74-88). -/
def defaultAccount (st : Settings) : RawAccount where
  account_index := some (.int st.lighter_account_index)
  api_key_index := some (.int st.lighter_api_key_index)
  api_key := some (.str st.lighter_api_key)
  api_secret := some (.str st.lighter_api_secret)
  name := some "Default Account"
  active := some true
  allowed_symbols := []

/-- Python dict assignment `self.account_configs[account_index] = account`
on the configuration map modelled as an association list: replace the entry
with this key if present, append otherwise. -/
def setConfig (cfgs : List (ℤ × RawAccount)) (i : ℤ) (a : RawAccount) :
    List (ℤ × RawAccount) :=
  if cfgs.any (fun p => p.1 == i) then
    cfgs.map (fun p => if p.1 == i then (i, a) else p)
  else cfgs ++ [(i, a)]

/-- `AccountManagerV2._load_default_account`: validate the default account
and, when valid, install it under the settings' account index. -/
def load_default_account (st : Settings) (cfgs : List (ℤ × RawAccount)) :
    List (ℤ × RawAccount) :=
  if validate_account_config (defaultAccount st) then
    setConfig cfgs st.lighter_account_index (defaultAccount st)
  else cfgs

/-- The account loop of `load_accounts`
(src/src/core/account_manager_v2.py 49-61): each entry is added only if it
validates and is active (`account.get('active', True)`). -/
def loadAccountsLoop (cfgs : List (ℤ × RawAccount)) :
    List RawAccount → List (ℤ × RawAccount)
  | [] => cfgs
  | a :: rest =>
      loadAccountsLoop
        (if validate_account_config a && a.active.getD true then
          setConfig cfgs (accountIndexOf a) a
        else cfgs) rest

/-- The three outcomes of reading `config/accounts.json`: the file is
missing, it is not valid JSON, or it parses to a list of account entries. -/
inductive ConfigFile where
  | missing
  | invalidJson
  | parsed (accounts : List RawAccount)

/-- `AccountManagerV2.load_accounts` (src/src/core/account_manager_v2.py
30-72): a missing file or a JSON decode error falls back to the default
account; otherwise the entries are validated and loaded, and if the
configuration map ends up empty the default account is installed. -/
def load_accounts (st : Settings) (cfgs : List (ℤ × RawAccount))
    (file : ConfigFile) : List (ℤ × RawAccount) :=
  match file with
  | .missing => load_default_account st cfgs
  | .invalidJson => load_default_account st cfgs
  | .parsed accounts =>
      let loaded := loadAccountsLoop cfgs accounts
      if loaded.isEmpty then load_default_account st loaded else loaded

/-- `setConfig` never yields an empty map. -/
theorem setConfig_ne_nil (cfgs : List (ℤ × RawAccount)) (i : ℤ)
    (a : RawAccount) : setConfig cfgs i a ≠ [] := by
  rw [setConfig]
  by_cases h : cfgs.any (fun p => p.1 == i)
  · rw [if_pos h]
    intro hmap
    rcases cfgs with _ | ⟨p, rest⟩
    · simp [List.any] at h
    · simp at hmap
  · rw [if_neg h]
    simp

/-- The loading loop never empties a nonempty map. -/
theorem loadAccountsLoop_ne_nil (accounts : List RawAccount)
    (cfgs : List (ℤ × RawAccount)) (h : cfgs ≠ []) :
    loadAccountsLoop cfgs accounts ≠ [] := by
  induction accounts generalizing cfgs with
  | nil => exact h
  | cons a rest ih =>
      rw [loadAccountsLoop]
      by_cases hcond : validate_account_config a && a.active.getD true
      · rw [if_pos hcond]
        exact ih _ (setConfig_ne_nil cfgs (accountIndexOf a) a)
      · rw [if_neg hcond]
        exact ih _ h

/-- If no entry validates, the loop adds nothing. -/
theorem loadAccountsLoop_all_invalid (accounts : List RawAccount)
    (cfgs : List (ℤ × RawAccount))
    (h : ∀ a ∈ accounts, validate_account_config a = false) :
    loadAccountsLoop cfgs accounts = cfgs := by
  induction accounts with
  | nil => rfl
  | cons a rest ih =>
      rw [loadAccountsLoop]
      have ha : validate_account_config a = false := h a (List.mem_cons_self a rest)
      rw [ha]
      simp only [Bool.false_and, Bool.false_eq_true, if_false]
      exact ih (fun b hb => h b (List.mem_cons_of_mem a hb))

/-- C7: the default account built from the environment settings always
passes `validate_account_config`; starting from an empty pool, a missing
configuration file, invalid JSON, or a file whose entries all fail
validation each make `load_accounts` install exactly the single default
account; validation demands the two index fields be integers and the two
credential fields be present; and after `load_accounts` the configuration
map is never empty. -/
theorem load_accounts_fallback (st : Settings) (cfgs : List (ℤ × RawAccount))
    (file : ConfigFile) (accounts : List RawAccount)
    (hinv : ∀ a ∈ accounts, validate_account_config a = false) :
    validate_account_config (defaultAccount st) = true ∧
    load_accounts st [] .missing =
      [(st.lighter_account_index, defaultAccount st)] ∧
    load_accounts st [] .invalidJson =
      [(st.lighter_account_index, defaultAccount st)] ∧
    load_accounts st [] (.parsed accounts) =
      [(st.lighter_account_index, defaultAccount st)] ∧
    (∀ a : RawAccount, validate_account_config a = true →
      isIntValue a.account_index = true ∧ isIntValue a.api_key_index = true ∧
      a.api_key.isSome = true ∧ a.api_secret.isSome = true) ∧
    load_accounts st cfgs file ≠ [] := by
  have hdef : validate_account_config (defaultAccount st) = true := rfl
  have hempty : load_default_account st [] =
      [(st.lighter_account_index, defaultAccount st)] := by
    rw [load_default_account, if_pos hdef]
    rfl
  have hner : ∀ c, load_default_account st c ≠ [] := by
    intro c
    rw [load_default_account, if_pos hdef]
    exact setConfig_ne_nil c _ _
  refine ⟨hdef, hempty, hempty, ?_, ?_, ?_⟩
  · rw [load_accounts]
    rw [loadAccountsLoop_all_invalid accounts [] hinv]
    simpa using hempty
  · intro a ha
    rw [validate_account_config] at ha
    simp only [Bool.and_eq_true] at ha
    exact ⟨ha.1.2, ha.2, ha.1.1.1.2, ha.1.1.2⟩
  · rcases file with _ | _ | accs
    · exact hner cfgs
    · exact hner cfgs
    · rw [load_accounts]
      by_cases hload : (loadAccountsLoop cfgs accs).isEmpty
      · rw [if_pos hload]
        exact hner _
      · rw [if_neg hload]
        simpa using hload

/-- Concrete instantiation of `load_accounts_fallback`: with the default
settings and a parsed file containing one entry missing every required
field, the pool holds exactly the default account. -/
theorem load_accounts_fallback_witness :
    load_accounts ⟨7, 2, "k", "s"⟩ []
        (.parsed [⟨none, none, none, none, none, none, []⟩]) =
      [((7 : ℤ), defaultAccount ⟨7, 2, "k", "s"⟩)] :=
  (load_accounts_fallback ⟨7, 2, "k", "s"⟩ [] .missing
    [⟨none, none, none, none, none, none, []⟩]
    (by intro a ha; simp at ha; subst ha; rfl)).2.2.2.1

/-- `AccountManagerV2.get_account_config`: dict lookup in the configuration
map (association list with unique keys). -/
def lookupConfig (cfgs : List (ℤ × RawAccount)) (idx : ℤ) : Option RawAccount :=
  (cfgs.find? (fun p => p.1 == idx)).map Prod.snd

/-- `AccountManagerV2.is_symbol_allowed` (src/src/core/account_manager_v2.py
191-202): `False` for an unknown account; otherwise an empty
`allowed_symbols` list permits every symbol, a nonempty one only its
members. -/
def is_symbol_allowed (cfgs : List (ℤ × RawAccount)) (idx : ℤ)
    (symbol : String) : Bool :=
  match lookupConfig cfgs idx with
  | none => false
  | some a => a.allowed_symbols.isEmpty || a.allowed_symbols.contains symbol

/-- How far `MultiAccountSignalService.process_signal` gets for one account:
stopped because the account is unknown, inactive, or symbol-filtered;
stopped because no client could be obtained; or dispatched to the trade
handler (`_handle_long_signal` / `_handle_short_signal` /
`_handle_close_signal`). -/
inductive SignalOutcome where
  | notFound
  | inactive
  | filtered
  | clientFailed
  | dispatched
deriving DecidableEq, Repr

/-- `MultiAccountSignalService.process_signal`
(src/src/services/multi_account_signal_service.py 26-85), up to the choice
of trade handler: look up the account configuration, skip inactive accounts,
skip symbol-filtered accounts, obtain a client (`clients` is the oracle for
`account_manager.get_client` succeeding), then dispatch. -/
def process_signal (cfgs : List (ℤ × RawAccount)) (clients : ℤ → Bool)
    (idx : ℤ) (symbol : String) : SignalOutcome :=
  match lookupConfig cfgs idx with
  | none => .notFound
  | some a =>
      if ¬ a.active.getD true then .inactive
      else if ¬ is_symbol_allowed cfgs idx symbol then .filtered
      else if ¬ clients idx then .clientFailed
      else .dispatched

/-- `MultiAccountSignalService.process_signal_for_all_accounts`
(src/src/services/multi_account_signal_service.py 87-114): one independent
`process_signal` task per active configured account, results collected
per account. -/
def process_signal_for_all_accounts (cfgs : List (ℤ × RawAccount))
    (clients : ℤ → Bool) (symbol : String) : List (ℤ × SignalOutcome) :=
  (cfgs.filter (fun p => p.2.active.getD true)).map
    (fun p => (p.1, process_signal cfgs clients p.1 symbol))

/-- `process_trading_signal_multi`
(src/src/services/multi_account_signal_service.py 486-505): an explicit
account scope processes just that account, no scope fans out to all active
accounts. -/
def process_trading_signal_multi (cfgs : List (ℤ × RawAccount))
    (clients : ℤ → Bool) (symbol : String) :
    Option ℤ → List (ℤ × SignalOutcome)
  | some idx => [(idx, process_signal cfgs clients idx symbol)]
  | none => process_signal_for_all_accounts cfgs clients symbol

/-- A successful `lookupConfig` result is a map entry. -/
theorem lookupConfig_mem (cfgs : List (ℤ × RawAccount)) (idx : ℤ)
    (a : RawAccount) (h : lookupConfig cfgs idx = some a) : (idx, a) ∈ cfgs := by
  rw [lookupConfig] at h
  rcases hf : cfgs.find? (fun p => p.1 == idx) with _ | p
  · rw [hf] at h
    exact Option.noConfusion h
  · rw [hf] at h
    injection h with h
    have hm := List.mem_of_find?_eq_some hf
    have hp := List.find?_some hf
    simp only [beq_iff_eq] at hp
    have : p = (idx, a) := by
      rcases p with ⟨i, b⟩
      simp only at hp h
      rw [hp, h]
    rwa [this] at hm

/-- With unique keys, a map entry is found by `lookupConfig`. -/
theorem mem_lookupConfig (cfgs : List (ℤ × RawAccount)) (idx : ℤ)
    (a : RawAccount) (hkeys : (cfgs.map Prod.fst).Nodup)
    (h : (idx, a) ∈ cfgs) : lookupConfig cfgs idx = some a := by
  induction cfgs with
  | nil => simp at h
  | cons p rest ih =>
      rw [List.map_cons, List.nodup_cons] at hkeys
      rcases List.mem_cons.mp h with hh | ht
      · rw [lookupConfig, List.find?]
        have : (p.1 == idx) = true := by
          rw [← hh]
          simp
        rw [this]
        simp [← hh]
      · have hne : (p.1 == idx) = false := by
          have : idx ∈ rest.map Prod.fst :=
            List.mem_map.mpr ⟨(idx, a), ht, rfl⟩
          have hpne : p.1 ≠ idx := fun he => hkeys.1 (he ▸ this)
          simpa using hpne
        rw [lookupConfig, List.find?, hne]
        exact ih hkeys.2 ht

/-- C8: with every client obtainable and unique account keys, a signal with
no explicit account scope reaches the trade handler for account `idx`
exactly when `idx` is configured with an account that is active and whose
allow-list (empty = allow all) permits the symbol; and an active account
whose nonempty allow-list excludes the symbol is stopped at the symbol
filter, so no order is submitted for it, independently of the other
accounts' outcomes. -/
theorem process_signal_dispatch (cfgs : List (ℤ × RawAccount))
    (clients : ℤ → Bool) (symbol : String) (idx : ℤ)
    (hkeys : (cfgs.map Prod.fst).Nodup)
    (hclients : ∀ i, clients i = true) :
    ((idx, SignalOutcome.dispatched) ∈
        process_trading_signal_multi cfgs clients symbol none ↔
      ∃ a, (idx, a) ∈ cfgs ∧ a.active.getD true = true ∧
        (a.allowed_symbols.isEmpty || a.allowed_symbols.contains symbol) = true) ∧
    (∀ a, (idx, a) ∈ cfgs → a.active.getD true = true →
      a.allowed_symbols.isEmpty = false →
      a.allowed_symbols.contains symbol = false →
      (idx, SignalOutcome.filtered) ∈
        process_trading_signal_multi cfgs clients symbol none ∧
      (idx, SignalOutcome.dispatched) ∉
        process_trading_signal_multi cfgs clients symbol none) := by
  have hdisp : ∀ a, (idx, a) ∈ cfgs → a.active.getD true = true →
      (a.allowed_symbols.isEmpty || a.allowed_symbols.contains symbol) = true →
      process_signal cfgs clients idx symbol = .dispatched := by
    intro a hmem hact hallow
    have hlk := mem_lookupConfig cfgs idx a hkeys hmem
    rw [process_signal, hlk]
    have hsym : is_symbol_allowed cfgs idx symbol = true := by
      rw [is_symbol_allowed, hlk]
      exact hallow
    simp [hact, hsym, hclients idx]
  constructor
  · constructor
    · intro hmem
      rw [process_trading_signal_multi, process_signal_for_all_accounts] at hmem
      rcases List.mem_map.mp hmem with ⟨p, hp, hpe⟩
      have hp1 : p.1 = idx := congrArg Prod.fst hpe
      have hps : process_signal cfgs clients p.1 symbol = .dispatched :=
        congrArg Prod.snd hpe
      rw [hp1] at hps
      rw [process_signal] at hps
      rcases hlk : lookupConfig cfgs idx with _ | a
      · rw [hlk] at hps
        simp at hps
      · rw [hlk] at hps
        refine ⟨a, lookupConfig_mem cfgs idx a hlk, ?_, ?_⟩
        · by_cases hact : a.active.getD true
          · exact hact
          · simp [hact] at hps
        · by_cases hact : a.active.getD true
          · by_cases hsym : is_symbol_allowed cfgs idx symbol
            · rw [is_symbol_allowed, hlk] at hsym
              exact hsym
            · simp [hact, hsym] at hps
          · simp [hact] at hps
    · intro ⟨a, hmem, hact, hallow⟩
      rw [process_trading_signal_multi, process_signal_for_all_accounts]
      refine List.mem_map.mpr ⟨(idx, a), ?_, ?_⟩
      · exact List.mem_filter.mpr ⟨hmem, by simpa using hact⟩
      · simp only
        rw [hdisp a hmem hact hallow]
  · intro a hmem hact hne hnc
    have hlk := mem_lookupConfig cfgs idx a hkeys hmem
    have hsym : is_symbol_allowed cfgs idx symbol = false := by
      rw [is_symbol_allowed, hlk]
      show (a.allowed_symbols.isEmpty || a.allowed_symbols.contains symbol) = false
      rw [hne, hnc]
      rfl
    have hfil : process_signal cfgs clients idx symbol = .filtered := by
      rw [process_signal, hlk]
      simp [hact, hsym]
    constructor
    · rw [process_trading_signal_multi, process_signal_for_all_accounts]
      refine List.mem_map.mpr ⟨(idx, a), ?_, ?_⟩
      · exact List.mem_filter.mpr ⟨hmem, by simpa using hact⟩
      · simp only
        rw [hfil]
    · intro hmem2
      rw [process_trading_signal_multi, process_signal_for_all_accounts] at hmem2
      rcases List.mem_map.mp hmem2 with ⟨p, hp, hpe⟩
      have hp1 : p.1 = idx := congrArg Prod.fst hpe
      have hps : process_signal cfgs clients p.1 symbol = .dispatched :=
        congrArg Prod.snd hpe
      rw [hp1, hfil] at hps
      exact absurd hps (by simp)

/-- Concrete instantiation of `process_signal_dispatch`, the spec's
end-to-end scenario: accounts 1, 2, 3 all active, account 2 excludes BTC
from its allow-list; a BTC signal with no scope dispatches to accounts 1
and 3 but is filtered for account 2. -/
theorem process_signal_dispatch_witness :
    ((2 : ℤ), SignalOutcome.filtered) ∈
        process_trading_signal_multi
          [(1, ⟨some (.int 1), some (.int 0), some (.str "k"), some (.str "s"),
              none, some true, []⟩),
           (2, ⟨some (.int 2), some (.int 0), some (.str "k"), some (.str "s"),
              none, some true, ["ETH"]⟩),
           (3, ⟨some (.int 3), some (.int 0), some (.str "k"), some (.str "s"),
              none, some true, []⟩)]
          (fun _ => true) "BTC" none ∧
    ((2 : ℤ), SignalOutcome.dispatched) ∉
        process_trading_signal_multi
          [(1, ⟨some (.int 1), some (.int 0), some (.str "k"), some (.str "s"),
              none, some true, []⟩),
           (2, ⟨some (.int 2), some (.int 0), some (.str "k"), some (.str "s"),
              none, some true, ["ETH"]⟩),
           (3, ⟨some (.int 3), some (.int 0), some (.str "k"), some (.str "s"),
              none, some true, []⟩)]
          (fun _ => true) "BTC" none :=
  (process_signal_dispatch
    [(1, ⟨some (.int 1), some (.int 0), some (.str "k"), some (.str "s"),
        none, some true, []⟩),
     (2, ⟨some (.int 2), some (.int 0), some (.str "k"), some (.str "s"),
        none, some true, ["ETH"]⟩),
     (3, ⟨some (.int 3), some (.int 0), some (.str "k"), some (.str "s"),
        none, some true, []⟩)]
    (fun _ => true) "BTC" 2 (by decide) (fun _ => rfl)).2
    ⟨some (.int 2), some (.int 0), some (.str "k"), some (.str "s"),
      none, some true, ["ETH"]⟩
    (by simp) rfl rfl rfl

/-- `slippage = 0.05` (src/src/core/lighter_client.py line 225 and
src/src/core/account_manager_v2.py line 409). -/
def slippage : ℚ := 5 / 100

/-- The slippage step of `create_market_order`, identical in
`LighterClient` (src/src/core/lighter_client.py 224-229) and
`LighterAccountClientV2` (src/src/core/account_manager_v2.py 408-413):
sells (`is_ask`) accept `price * (1 - slippage)`, buys accept
`price * (1 + slippage)`. -/
def acceptable_price (ideal : ℚ) (is_ask : Bool) : ℚ :=
  if is_ask then ideal * (1 - slippage) else ideal * (1 + slippage)

/-- Python `int()` applied to a float: truncation toward zero. -/
def pythonInt (q : ℚ) : ℤ := if 0 ≤ q then ⌊q⌋ else ⌈q⌉

/-- `acceptable_price_scaled = int(acceptable_price * (10 ** price_decimals))`
(src/src/core/lighter_client.py 231-236, account_manager_v2.py 415). -/
def acceptable_price_scaled (ideal : ℚ) (is_ask : Bool)
    (price_decimals : ℕ) : ℤ :=
  pythonInt (acceptable_price ideal is_ask * 10 ^ price_decimals)

/-- C9: for every market order with positive reference price, the acceptable
execution price equals the reference times `1 - 0.05` for a sell and
`1 + 0.05` for a buy — strictly below the reference for a sell and strictly
above it for a buy, i.e. always adverse to the taker — and the integer price
actually submitted is that value scaled by `10 ^ price_decimals` and
truncated. -/
theorem acceptable_price_slippage (price : ℚ) (hpos : 0 < price) (d : ℕ) :
    slippage = 5 / 100 ∧
    acceptable_price price true = price * (1 - 5 / 100) ∧
    acceptable_price price false = price * (1 + 5 / 100) ∧
    acceptable_price price true < price ∧
    price < acceptable_price price false ∧
    acceptable_price_scaled price true d = ⌊price * (1 - 5 / 100) * 10 ^ d⌋ ∧
    acceptable_price_scaled price false d = ⌊price * (1 + 5 / 100) * 10 ^ d⌋ := by
  have htrue : acceptable_price price true = price * (1 - 5 / 100) := rfl
  have hfalse : acceptable_price price false = price * (1 + 5 / 100) := rfl
  have hlt : acceptable_price price true < price := by
    rw [htrue]
    nlinarith
  have hgt : price < acceptable_price price false := by
    rw [hfalse]
    nlinarith
  have hnn1 : (0 : ℚ) ≤ acceptable_price price true * 10 ^ d := by
    rw [htrue]
    positivity
  have hnn2 : (0 : ℚ) ≤ acceptable_price price false * 10 ^ d := by
    rw [hfalse]
    positivity
  refine ⟨rfl, htrue, hfalse, hlt, hgt, ?_, ?_⟩
  · rw [acceptable_price_scaled, pythonInt, if_pos hnn1, htrue]
  · rw [acceptable_price_scaled, pythonInt, if_pos hnn2, hfalse]

/-- Concrete instantiation of `acceptable_price_slippage` at reference price
100: a sell accepts 95, a buy accepts 105. -/
theorem acceptable_price_slippage_witness :
    acceptable_price 100 true = 100 * (1 - 5 / 100) ∧
    acceptable_price 100 false = 100 * (1 + 5 / 100) :=
  ⟨(acceptable_price_slippage 100 (by norm_num) 0).2.1,
   (acceptable_price_slippage 100 (by norm_num) 0).2.2.1⟩

/-- A Python scalar stored in an order-result value. -/
inductive PyLit where
  | int (n : ℤ)
  | str (s : String)
  | rat (q : ℚ)
deriving DecidableEq, Repr

/-- A Python value as the venue-client methods return it: either a plain
dict (`mapping`, whose keys live in the mapping namespace only) or an object
exposing attributes.  A plain dict never exposes its keys as attributes:
`hasattr(d, k)` is `False` for a dict `d` whatever its keys. -/
inductive PyObject where
  | mapping (entries : List (String × PyLit))
  | object (attrs : List (String × PyLit))
deriving DecidableEq, Repr

/-- Python `hasattr(x, name)`: always `False` on a plain dict, attribute
lookup on an object. -/
def pyHasAttr : PyObject → String → Bool
  | .mapping _, _ => false
  | .object attrs, name => attrs.any (fun p => p.1 == name)

/-- Python attribute read `x.name` (as an optional value). -/
def pyGetAttr : PyObject → String → Option PyLit
  | .mapping _, _ => none
  | .object attrs, name => (attrs.find? (fun p => p.1 == name)).map Prod.snd

/-- Python `d.get(key)` on a dict. -/
def pyMapGet : PyObject → String → Option PyLit
  | .mapping entries, key => (entries.find? (fun p => p.1 == key)).map Prod.snd
  | .object _, _ => none

/-- The success value of `LighterClient.create_market_order`
(src/src/core/lighter_client.py 281-290): a plain dict with keys
`transaction`, `tx_hash`, `order_id`, `symbol`, `side`, `quantity`,
`leverage`, `timestamp` — and no `code` key. -/
def lighterClientOrderResult (tx tx_hash order_id symbol side : String)
    (quantity : ℚ) (leverage : ℤ) (timestamp : String) : PyObject :=
  .mapping [("transaction", .str tx), ("tx_hash", .str tx_hash),
    ("order_id", .str order_id), ("symbol", .str symbol),
    ("side", .str side), ("quantity", .rat quantity),
    ("leverage", .int leverage), ("timestamp", .str timestamp)]

/-- The success value of `LighterAccountClientV2.create_market_order`
(src/src/core/account_manager_v2.py 479-489): a plain dict that carries
`"code": 200`. -/
def lighterAccountClientV2OrderResult (tx_hash order_id symbol side : String)
    (account_index : ℤ) (quantity : ℚ) (leverage : ℤ)
    (timestamp : String) : PyObject :=
  .mapping [("tx_hash", .str tx_hash), ("order_id", .str order_id),
    ("account_index", .int account_index), ("symbol", .str symbol),
    ("side", .str side), ("quantity", .rat quantity),
    ("leverage", .int leverage), ("timestamp", .str timestamp),
    ("code", .int 200)]

/-- The success check of `SignalTradingService._execute_trade`
(src/src/services/signal_trading_service.py line 249):
`result and hasattr(result, 'code') and result.code == 200`. -/
def signalServiceIsSuccess (result : Option PyObject) : Bool :=
  match result with
  | none => false
  | some r => pyHasAttr r "code" && (pyGetAttr r "code" == some (.int 200))

/-- The success check of `MultiAccountSignalService._execute_trade`
(src/src/services/multi_account_signal_service.py line 371):
`result and result.get('code') == 200`. -/
def multiServiceIsSuccess (result : Option PyObject) : Bool :=
  match result with
  | none => false
  | some r => pyMapGet r "code" == some (.int 200)

/-- The tracked position after a `SignalTradingService` signal handler runs
its trade: `_sync_position_with_dex` is called only when `_execute_trade`
returned `True` (src/src/services/signal_trading_service.py 185-191,
219-225, 365-370). -/
def signalServicePositionAfterTrade (tracked : ℚ) (result : Option PyObject)
    (dexPosition : ℚ) : ℚ :=
  if signalServiceIsSuccess result then dexPosition else tracked

/-- C10: the single-account service's success check demands a `code`
*attribute*, but `LighterClient.create_market_order` returns a plain dict,
which exposes no attributes — so `_execute_trade` evaluates to `False` even
for a successfully created order and the service never updates its tracked
position from a trade it placed; the multi-account pairing (dict lookup of
`code` against the V2 client's dict carrying `code = 200`) succeeds on the
same shape of input. -/
theorem single_account_success_detection
    (tx tx_hash order_id symbol side : String) (quantity : ℚ)
    (leverage account_index : ℤ) (timestamp : String) (tracked dex : ℚ) :
    pyMapGet (lighterClientOrderResult tx tx_hash order_id symbol side
      quantity leverage timestamp) "code" = none ∧
    pyHasAttr (lighterClientOrderResult tx tx_hash order_id symbol side
      quantity leverage timestamp) "code" = false ∧
    signalServiceIsSuccess (some (lighterClientOrderResult tx tx_hash
      order_id symbol side quantity leverage timestamp)) = false ∧
    signalServicePositionAfterTrade tracked
      (some (lighterClientOrderResult tx tx_hash order_id symbol side
        quantity leverage timestamp)) dex = tracked ∧
    multiServiceIsSuccess (some (lighterAccountClientV2OrderResult tx_hash
      order_id symbol side account_index quantity leverage timestamp)) =
      true := by
  refine ⟨rfl, rfl, rfl, ?_, rfl⟩
  rw [signalServicePositionAfterTrade]
  rfl

/-- Externally observable effects of processing one trading signal. -/
inductive TradeEvent where
  | dbWebhookLog
  | riskPreTradeCheck
  | orderSubmit
  | riskRecordTrade
  | dbTradeRecord
  | notifyAlert
  | notifyTrade
  | positionSync
deriving DecidableEq, Repr

/-- `trading_service.process_trading_signal`
(src/src/services/trading_service.py 15-72) as its sequence of effects:
save the webhook log, call `risk_manager.check_pre_trade`; a blocked result
sends an alert and returns with no order; otherwise a `buy`/`sell`/`close`
action submits an order (via `process_open_position` /
`process_close_position`, 75-158), calls `risk_manager.record_trade` when
the order call completed, and records/notifies the trade; an order failure
raises into the outer handler, which sends an alert. -/
def process_trading_signal_events (riskAllowed : Bool) (action : String)
    (orderOk : Bool) : List TradeEvent :=
  [.dbWebhookLog, .riskPreTradeCheck] ++
    if ¬ riskAllowed then [.notifyAlert]
    else if action == "close" || action == "buy" || action == "sell" then
      [.orderSubmit] ++
        (if orderOk then [.riskRecordTrade, .dbTradeRecord, .notifyTrade]
        else [.notifyAlert])
    else []

/-- The effect trace of a `MultiAccountSignalService` signal handler
(`_handle_long_signal` / `_handle_short_signal` / `_handle_close_signal`
with `_execute_trade`, src/src/services/multi_account_signal_service.py
184-406): when the policy yields a trade, the order is submitted directly —
no risk-gate call appears anywhere on this path (the module never touches
`risk_manager`) — and on success the position is re-synced. -/
def multi_handle_signal_events (instr : TradeInstr) (orderOk : Bool) :
    List TradeEvent :=
  match instr with
  | .none => []
  | .trade _ _ => [.orderSubmit] ++ (if orderOk then [.positionSync] else [])

/-- C4 counterexample: on the multi-account signal path — the path the
webhook actually routes to (src/src/api/webhook.py 103-111) — a long signal
from a flat position submits an order with no preceding `checkPreTrade` and
no `recordTrade` afterwards, refuting the claim that every order-submitting
path consults the Risk Gate. -/
theorem multi_account_no_risk_gate :
    handleLongSignal 0 1 = .trade .buy 1 ∧
    multi_handle_signal_events (.trade .buy 1) true =
      [.orderSubmit, .positionSync] ∧
    TradeEvent.riskPreTradeCheck ∉
      multi_handle_signal_events (.trade .buy 1) true ∧
    TradeEvent.riskRecordTrade ∉
      multi_handle_signal_events (.trade .buy 1) true := by
  refine ⟨?_, rfl, by decide, by decide⟩
  norm_num [handleLongSignal]

/-- C4 amended: on the `trading_service` path the pre-trade check precedes
any submission, a false result aborts with no order submitted and no trade
recorded, and a completed execution is reported back via `record_trade`;
the multi-account signal path, by contrast, submits orders without ever
consulting the risk gate. -/
theorem risk_gate_trading_service_path (riskAllowed orderOk : Bool)
    (action : String) (instr : TradeInstr) :
    ((process_trading_signal_events riskAllowed action orderOk).head? =
      some .dbWebhookLog ∧
     (process_trading_signal_events riskAllowed action orderOk).get? 1 =
      some .riskPreTradeCheck) ∧
    (riskAllowed = false →
      process_trading_signal_events riskAllowed action orderOk =
        [.dbWebhookLog, .riskPreTradeCheck, .notifyAlert] ∧
      TradeEvent.orderSubmit ∉
        process_trading_signal_events riskAllowed action orderOk ∧
      TradeEvent.riskRecordTrade ∉
        process_trading_signal_events riskAllowed action orderOk ∧
      TradeEvent.dbTradeRecord ∉
        process_trading_signal_events riskAllowed action orderOk) ∧
    (riskAllowed = true → orderOk = true →
      (action == "close" || action == "buy" || action == "sell") = true →
      process_trading_signal_events riskAllowed action orderOk =
        [.dbWebhookLog, .riskPreTradeCheck, .orderSubmit, .riskRecordTrade,
          .dbTradeRecord, .notifyTrade]) ∧
    TradeEvent.riskPreTradeCheck ∉ multi_handle_signal_events instr orderOk ∧
    TradeEvent.riskRecordTrade ∉ multi_handle_signal_events instr orderOk := by
  refine ⟨?_, ?_, ?_, ?_, ?_⟩
  · cases riskAllowed
    · exact ⟨rfl, rfl⟩
    · by_cases hact : (action == "close" || action == "buy" ||
        action == "sell") = true
      · constructor
        · simp [process_trading_signal_events, hact]
        · simp [process_trading_signal_events, hact]
      · constructor
        · simp [process_trading_signal_events, hact]
        · simp [process_trading_signal_events, hact]
  · intro h
    subst h
    refine ⟨rfl, ?_, ?_, ?_⟩ <;> simp [process_trading_signal_events]
  · intro h1 h2 hact
    subst h1
    subst h2
    simp [process_trading_signal_events, hact]
  · rcases instr with _ | ⟨sd, q⟩
    · simp [multi_handle_signal_events]
    · cases orderOk
      · simp [multi_handle_signal_events]
      · simp [multi_handle_signal_events]
  · rcases instr with _ | ⟨sd, q⟩
    · simp [multi_handle_signal_events]
    · cases orderOk
      · simp [multi_handle_signal_events]
      · simp [multi_handle_signal_events]

/-- Concrete instantiation of `risk_gate_trading_service_path`: a blocked
buy signal produces only the log, the check and an alert — no order. -/
theorem risk_gate_trading_service_path_witness :
    process_trading_signal_events false "buy" true =
      [.dbWebhookLog, .riskPreTradeCheck, .notifyAlert] :=
  ((risk_gate_trading_service_path false true "buy" .none).2.1 rfl).1

end LighterBot
